import Mathlib

/-!
Verification of `src/runtime/dart/gen_test_bundle_invocation.py`.

The script parses `--out <path>` and repeated `--test <target>` flags,
ensures the parent directory of the output path exists (creating it and
its ancestors when missing), writes a shell script consisting of a
shebang line, a blank line and one line per test target, and finally
marks the file owner/group read-write-execute and other read.

We embed the program shallowly: the filesystem is an explicit state
(a set of directories and an association list of files with contents and
POSIX mode bits), library calls (`os.path.dirname`, `os.path.exists`,
`os.makedirs`, `open(..., 'w')`/`write`, `os.chmod`) become explicit
state-passing functions, and `main` becomes `run`, a function from the
initial filesystem and the argument vector to an exit status and the
final filesystem.  External failure of the `chmod` system call is
injected through a boolean oracle, since nothing in the program state
determines it.
-/

namespace GenTestBundle

/-- Error class of a failed run: `usage` models `argparse` rejecting the
command line (Python exits with status 2), `ioError` models an uncaught
`OSError`/`IOError` from a filesystem call (Python prints a traceback and
exits with status 1). -/
inductive Err where
  | usage : Err
  | ioError : Err
deriving DecidableEq

/-- Model filesystem state: the set of existing directories, and the
existing regular files as an association list `path ↦ (content, mode)`. -/
structure FS where
  dirs : List String
  files : List (String × String × Nat)
deriving DecidableEq

/-- `os.path.dirname` (POSIX): everything up to the last `/`; the result
keeps no trailing slashes unless it consists only of slashes.  Mirrors
CPython `posixpath.dirname`: `head = p[:p.rfind('/')+1]`, then
`head.rstrip('/')` unless `head` is empty or all slashes. -/
def dirname (p : String) : String :=
  let head := (p.data.reverse.dropWhile (fun c => c != '/')).reverse
  if head.all (fun c => c == '/') then String.mk head
  else String.mk ((head.reverse.dropWhile (fun c => c == '/')).reverse)

/-- `os.path.exists`: true when the path names an existing directory or
file.  CPython returns `False` for the empty path (`stat('')` fails). -/
def pathExists (fs : FS) (p : String) : Bool :=
  p != "" && (fs.dirs.contains p || fs.files.any (fun f => f.1 == p))

/-- The chain of directories `os.makedirs p` creates: `p` and its
ancestors obtained by iterating `dirname`, stopped at the empty string or
at a `dirname` fixpoint such as `/`.  The fuel argument bounds the
iteration; `p.length + 1` is always enough since `dirname` never grows a
path. -/
def dirChain : Nat → String → List String
  | 0, _ => []
  | fuel + 1, p =>
    if p = "" then []
    else if dirname p = p then [p]
    else p :: dirChain fuel (dirname p)

/-- `os.makedirs p` (no `exist_ok`): raises `FileNotFoundError` on the
empty path, raises `FileExistsError` when `p` already exists, and
otherwise creates `p` together with all missing ancestor directories. -/
def makedirs (fs : FS) (p : String) : Except Err FS :=
  if p = "" then .error .ioError
  else if pathExists fs p then .error .ioError
  else .ok { fs with dirs := dirChain (p.length + 1) p ++ fs.dirs }

/-- Content and mode of the file at `p`, when one exists. -/
def lookupFile (fs : FS) (p : String) : Option (String × Nat) :=
  (fs.files.find? (fun f => f.1 == p)).map (fun f => f.2)

/-- Content of the file at `p`, when one exists. -/
def fileContent (fs : FS) (p : String) : Option String :=
  (lookupFile fs p).map (fun f => f.1)

/-- Mode bits of the file at `p`, when one exists. -/
def fileMode (fs : FS) (p : String) : Option Nat :=
  (lookupFile fs p).map (fun f => f.2)

/-- Mode bits a freshly created file gets from `open(p, 'w')`:
`0o666` (the umask is not modelled). -/
def defaultMode : Nat := 0o666

/-- The mode bits the file at `p` has right after `open(p, 'w')`:
opening an existing file for writing truncates it but keeps its mode
bits; a fresh file is created with `defaultMode`. -/
def priorMode (fs : FS) (p : String) : Nat :=
  match lookupFile fs p with
  | some f => f.2
  | none => defaultMode

/-- `open(p, 'w')` followed by `file.write content`: requires the parent
directory to exist (the empty parent means the current working
directory) and `p` itself not to be a directory; truncates any existing
file at `p` (keeping its mode bits) or creates a fresh one with
`defaultMode`. -/
def writeFile (fs : FS) (p content : String) : Except Err FS :=
  if (dirname p == "" || fs.dirs.contains (dirname p)) &&
      !fs.dirs.contains p then
    .ok { fs with
          files := (p, content, priorMode fs p)
            :: fs.files.filter (fun f => f.1 != p) }
  else .error .ioError

/-- `os.chmod p m`: sets the mode bits of the file at `p`.  The boolean
oracle `ok` injects an external failure of the system call (for example
`EPERM`); the call also fails when no file exists at `p`. -/
def chmod (fs : FS) (p : String) (m : Nat) (ok : Bool) : Except Err FS :=
  if !ok then .error .ioError
  else match lookupFile fs p with
    | none => .error .ioError
    | some _ =>
      .ok { fs with
            files := fs.files.map
              (fun f => if f.1 = p then (f.1, f.2.1, m) else f) }

/-- The parsed command line: `args.out` and `args.test` of the Python
`argparse` namespace. -/
structure Args where
  out : String
  test : List String
deriving DecidableEq

/-- Core of the `argparse` configuration of `main`: scan the argument
vector, `--out v` stores `v` (a later occurrence overwrites), `--test v`
appends `v` (`action='append'`), anything else is rejected; at the end
both `--out` and at least one `--test` must have occurred
(`required=True`).  Abbreviated flags and the `--flag=value` form of
`argparse` are not modelled. -/
def parseArgsAux : List String → Option String → List String → Except Err Args
  | [], out?, tests =>
    match out? with
    | none => .error .usage
    | some o => if tests.isEmpty then .error .usage else .ok ⟨o, tests⟩
  | "--out" :: v :: rest, _, tests => parseArgsAux rest (some v) tests
  | "--test" :: v :: rest, out?, tests => parseArgsAux rest out? (tests ++ [v])
  | _ :: _, _, _ => .error .usage

/-- `parser.parse_args()` on the given argument vector. -/
def parseArgs (argv : List String) : Except Err Args :=
  parseArgsAux argv none []

/-- The script text built by `main`:
`script = '#!/bin/sh\n\n'` then `script += "%s\n" % t` for each target. -/
def buildScript (tests : List String) : String :=
  tests.foldl (fun acc t => acc ++ t ++ "\n") "#!/bin/sh\n\n"

/-- `stat.S_IRUSR`. -/
def S_IRUSR : Nat := 0o400
/-- `stat.S_IWUSR`. -/
def S_IWUSR : Nat := 0o200
/-- `stat.S_IXUSR`. -/
def S_IXUSR : Nat := 0o100
/-- `stat.S_IRGRP`. -/
def S_IRGRP : Nat := 0o40
/-- `stat.S_IWGRP`. -/
def S_IWGRP : Nat := 0o20
/-- `stat.S_IXGRP`. -/
def S_IXGRP : Nat := 0o10
/-- `stat.S_IROTH`. -/
def S_IROTH : Nat := 0o4

/-- The `permissions` value of `main`: owner rwx, group rwx, other r. -/
def permissions : Nat :=
  S_IRUSR ||| S_IWUSR ||| S_IXUSR ||| S_IRGRP ||| S_IWGRP ||| S_IXGRP ||| S_IROTH

/-- The directory-ensuring step of `main`:
`if not os.path.exists(test_dir): os.makedirs(test_dir)`. -/
def ensureDir (fs : FS) (d : String) : Except Err FS :=
  if pathExists fs d then .ok fs else makedirs fs d

/-- `main` as a state-passing function: parse the arguments, ensure the
parent directory of `args.out` exists, write the script, set the
permission bits.  An error aborts the run at once and returns the
filesystem as mutated so far; `chmodOk` is the failure oracle of the
final `os.chmod` call. -/
def run (fs : FS) (argv : List String) (chmodOk : Bool) :
    Except Err Unit × FS :=
  match parseArgs argv with
  | .error e => (.error e, fs)
  | .ok args =>
    match ensureDir fs (dirname args.out) with
    | .error e => (.error e, fs)
    | .ok fs1 =>
      match writeFile fs1 args.out (buildScript args.test) with
      | .error e => (.error e, fs1)
      | .ok fs2 =>
        match chmod fs2 args.out permissions chmodOk with
        | .error e => (.error e, fs2)
        | .ok fs3 => (.ok (), fs3)

/-- `sys.exit(main())`: `main` returns `None` on success, so the process
exits with status 0; an `argparse` usage error exits with status 2; an
uncaught exception exits with status 1. -/
def exitCode : Except Err Unit → Nat
  | .ok _ => 0
  | .error .usage => 2
  | .error .ioError => 1

/-- The argument vector `--out o --test t₁ … --test tₙ`: one `--test`
flag occurrence per target, in list order. -/
def mkArgv (o : String) (T : List String) : List String :=
  "--out" :: o :: T.foldr (fun t r => "--test" :: t :: r) []

/-- Split a character list at every newline character; the result is the
list of lines, where a trailing newline contributes a final empty
segment. -/
def splitNl : List Char → List (List Char)
  | [] => [[]]
  | c :: cs =>
    if c = '\n' then [] :: splitNl cs
    else
      match splitNl cs with
      | l :: ls => (c :: l) :: ls
      | [] => [[c]]

/-! ### String lemmas -/

theorem foldl_append_init (l : List String) (b : String) :
    l.foldl (fun r s => r ++ s) b = b ++ l.foldl (fun r s => r ++ s) "" := by
  induction l generalizing b with
  | nil => simp
  | cons x xs ih =>
    simp only [List.foldl_cons]
    rw [ih (b ++ x), ih ("" ++ x), String.empty_append, String.append_assoc]

theorem join_cons (s : String) (l : List String) :
    String.join (s :: l) = s ++ String.join l := by
  simp only [String.join, List.foldl_cons]
  rw [foldl_append_init l ("" ++ s), String.empty_append]

theorem buildScript_foldl (T : List String) (a : String) :
    T.foldl (fun acc t => acc ++ t ++ "\n") a
      = a ++ String.join (T.map (fun t => t ++ "\n")) := by
  induction T generalizing a with
  | nil => simp [String.join]
  | cons t ts ih =>
    simp only [List.foldl_cons, List.map_cons]
    rw [ih, join_cons]
    simp [String.append_assoc]

theorem buildScript_eq_join (T : List String) :
    buildScript T = "#!/bin/sh\n\n" ++ String.join (T.map (fun t => t ++ "\n")) :=
  buildScript_foldl T _

theorem intercalate_go_append (s a b : String) (l : List String) :
    String.intercalate.go (a ++ b) s l = a ++ String.intercalate.go b s l := by
  induction l generalizing b with
  | nil => simp [String.intercalate.go]
  | cons c cs ih =>
    simp only [String.intercalate.go, String.append_assoc]
    rw [ih]

theorem intercalate_cons_cons (s t u : String) (us : List String) :
    String.intercalate s (t :: u :: us) = t ++ s ++ String.intercalate s (u :: us) := by
  simp only [String.intercalate]
  rw [String.intercalate.go]
  exact intercalate_go_append s (t ++ s) u us

theorem intercalate_newline (T : List String) (hT : T ≠ []) :
    String.intercalate "\n" T ++ "\n" = String.join (T.map (fun t => t ++ "\n")) := by
  induction T with
  | nil => cases hT rfl
  | cons t ts ih =>
    cases ts with
    | nil => simp [String.intercalate, String.intercalate.go, String.join, join_cons]
    | cons u us =>
      rw [intercalate_cons_cons, List.map_cons, join_cons]
      rw [String.append_assoc, String.append_assoc]
      rw [ih (by simp), String.append_assoc]


theorem parseArgsAux_no_test (l : List String) (out? : Option String) (tests : List String)
    (hnt : ¬ "--test" ∈ l) (hts : tests = []) :
    parseArgsAux l out? tests = .error .usage := by
  induction l, out?, tests using parseArgsAux.induct with
  | case1 tests => simp [parseArgsAux]
  | case2 tests o h => simp [parseArgsAux, h]
  | case3 tests o h => subst hts; simp at h
  | case4 v rest x tests ih =>
    show parseArgsAux rest (some v) tests = .error .usage
    exact ih (fun hm => hnt (List.mem_cons_of_mem _ (List.mem_cons_of_mem _ hm))) hts
  | case5 v rest out? tests ih => exact absurd (List.mem_cons_self _ _) hnt
  | case6 head tail out? tests h1 h2 =>
    unfold parseArgsAux
    split
    · rename_i heq; exact absurd heq (by simp)
    · rename_i v rest heq
      injection heq with hv ht
      exact (h1 v rest hv ht).elim
    · rename_i v rest heq
      injection heq with hv ht
      exact (h2 v rest hv ht).elim
    · rfl

theorem parseArgsAux_no_out (l : List String) (out? : Option String) (tests : List String)
    (hno : ¬ "--out" ∈ l) (hout : out? = none) :
    parseArgsAux l out? tests = .error .usage := by
  induction l, out?, tests using parseArgsAux.induct with
  | case1 tests => simp [parseArgsAux]
  | case2 tests o h => cases hout
  | case3 tests o h => cases hout
  | case4 v rest x tests ih => exact absurd (List.mem_cons_self _ _) hno
  | case5 v rest out? tests ih =>
    show parseArgsAux rest _ _ = .error .usage
    exact ih (fun hm => hno (List.mem_cons_of_mem _ (List.mem_cons_of_mem _ hm))) hout
  | case6 head tail out? tests h1 h2 =>
    unfold parseArgsAux
    split
    · rename_i heq; exact absurd heq (by simp)
    · rename_i v rest heq
      injection heq with hv ht
      exact (h1 v rest hv ht).elim
    · rename_i v rest heq
      injection heq with hv ht
      exact (h2 v rest hv ht).elim
    · rfl

theorem parseArgsAux_ok_ne_nil (l : List String) (out? : Option String) (tests : List String)
    (args : Args) (h : parseArgsAux l out? tests = .ok args) : args.test ≠ [] := by
  induction l, out?, tests using parseArgsAux.induct with
  | case1 tests => simp [parseArgsAux] at h
  | case2 tests o hemp => simp [parseArgsAux, hemp] at h
  | case3 tests o hemp =>
    have heq : parseArgsAux [] (some o) tests
        = if tests.isEmpty then .error .usage else .ok ⟨o, tests⟩ := rfl
    rw [heq, if_neg hemp] at h
    injection h with h'
    subst h'
    simpa using hemp
  | case4 v rest x tests ih => exact ih h
  | case5 v rest out? tests ih => exact ih h
  | case6 head tail out? tests h1 h2 =>
    unfold parseArgsAux at h
    split at h
    · rename_i heq; exact absurd heq (by simp)
    · rename_i v rest heq
      injection heq with hv ht
      exact (h1 v rest hv ht).elim
    · rename_i v rest heq
      injection heq with hv ht
      exact (h2 v rest hv ht).elim
    · cases h

theorem parseArgs_ok_ne_nil (argv : List String) (args : Args)
    (h : parseArgs argv = .ok args) : args.test ≠ [] :=
  parseArgsAux_ok_ne_nil argv none [] args h

theorem parseArgsAux_append_tests (o : String) (T : List String) :
    ∀ acc, parseArgsAux (T.foldr (fun t r => "--test" :: t :: r) []) (some o) acc
      = if (acc ++ T).isEmpty then .error .usage else .ok ⟨o, acc ++ T⟩ := by
  induction T with
  | nil => intro acc; simp [parseArgsAux]
  | cons t ts ih =>
    intro acc
    have h1 : parseArgsAux ((t :: ts).foldr (fun t r => "--test" :: t :: r) []) (some o) acc
        = parseArgsAux (ts.foldr (fun t r => "--test" :: t :: r) []) (some o) (acc ++ [t]) := rfl
    rw [h1, ih (acc ++ [t])]
    simp

theorem parseArgs_mkArgv (o : String) (T : List String) (hT : T ≠ []) :
    parseArgs (mkArgv o T) = .ok ⟨o, T⟩ := by
  have h0 : parseArgs (mkArgv o T)
      = parseArgsAux (T.foldr (fun t r => "--test" :: t :: r) []) (some o) [] := rfl
  rw [h0, parseArgsAux_append_tests o T []]
  simp [hT]

/-! ### Run decomposition -/

theorem run_parse_error {fs : FS} {argv : List String} {chm : Bool} {e : Err}
    (hp : parseArgs argv = .error e) :
    run fs argv chm = (.error e, fs) := by
  unfold run
  rw [hp]

theorem run_ok_parts {fs : FS} {argv : List String} {chm : Bool} {args : Args} {fs' : FS}
    (hp : parseArgs argv = .ok args)
    (hr : run fs argv chm = (.ok (), fs')) :
    ∃ fs1 fs2, ensureDir fs (dirname args.out) = .ok fs1 ∧
      writeFile fs1 args.out (buildScript args.test) = .ok fs2 ∧
      chmod fs2 args.out permissions chm = .ok fs' := by
  unfold run at hr
  rw [hp] at hr
  dsimp only at hr
  cases h1 : ensureDir fs (dirname args.out) with
  | error e => rw [h1] at hr; dsimp only at hr; simp at hr
  | ok fs1 =>
    rw [h1] at hr
    dsimp only at hr
    cases h2 : writeFile fs1 args.out (buildScript args.test) with
    | error e => rw [h2] at hr; dsimp only at hr; simp at hr
    | ok fs2 =>
      rw [h2] at hr
      dsimp only at hr
      cases h3 : chmod fs2 args.out permissions chm with
      | error e => rw [h3] at hr; dsimp only at hr; simp at hr
      | ok fs3 =>
        rw [h3] at hr
        dsimp only at hr
        simp only [Prod.mk.injEq] at hr
        exact ⟨fs1, fs2, rfl, h2, hr.2 ▸ h3⟩

theorem run_steps_ok {fs : FS} {argv : List String} {chm : Bool} {args : Args}
    {fs1 fs2 fs3 : FS}
    (hp : parseArgs argv = .ok args)
    (h1 : ensureDir fs (dirname args.out) = .ok fs1)
    (h2 : writeFile fs1 args.out (buildScript args.test) = .ok fs2)
    (h3 : chmod fs2 args.out permissions chm = .ok fs3) :
    run fs argv chm = (.ok (), fs3) := by
  unfold run
  rw [hp]
  dsimp only
  rw [h1]
  dsimp only
  rw [h2]
  dsimp only
  rw [h3]

theorem run_chmod_false {fs : FS} {argv : List String} {args : Args} {fs1 fs2 : FS}
    (hp : parseArgs argv = .ok args)
    (h1 : ensureDir fs (dirname args.out) = .ok fs1)
    (h2 : writeFile fs1 args.out (buildScript args.test) = .ok fs2) :
    run fs argv false = (.error .ioError, fs2) := by
  unfold run
  rw [hp]
  dsimp only
  rw [h1]
  dsimp only
  rw [h2]
  rfl

theorem ensureDir_ok_facts {fs : FS} {d : String} {fs1 : FS}
    (h : ensureDir fs d = .ok fs1) :
    fs1.files = fs.files ∧ d ≠ "" ∧
      (pathExists fs d = true → fs1 = fs) ∧
      (pathExists fs d = false →
        fs1.dirs = dirChain (d.length + 1) d ++ fs.dirs) := by
  unfold ensureDir at h
  cases hpe : pathExists fs d with
  | true =>
    rw [hpe] at h
    simp only [if_true] at h
    injection h with h; subst h
    refine ⟨rfl, ?_, fun _ => rfl, fun hf => nomatch hf⟩
    intro hd; subst hd
    simp [pathExists] at hpe
  | false =>
    rw [hpe] at h
    simp only [Bool.false_eq_true, if_false] at h
    unfold makedirs at h
    by_cases hd : d = ""
    · rw [if_pos hd] at h; cases h
    · rw [if_neg hd] at h
      rw [if_neg (by rw [hpe]; exact fun hf => nomatch hf)] at h
      injection h with h; subst h
      refine ⟨rfl, hd, ?_, fun _ => rfl⟩
      intro hex
      exact nomatch hex

theorem writeFile_ok_facts {fs : FS} {p c : String} {fs2 : FS}
    (h : writeFile fs p c = .ok fs2) :
    fs2.dirs = fs.dirs ∧
    fs2.files = (p, c, priorMode fs p) :: fs.files.filter (fun f => f.1 != p) ∧
    (dirname p == "" || fs.dirs.contains (dirname p)) = true ∧
    fs.dirs.contains p = false := by
  unfold writeFile at h
  split at h
  · rename_i hc
    injection h with h; subst h
    rw [Bool.and_eq_true] at hc
    refine ⟨rfl, rfl, hc.1, ?_⟩
    have h2 := hc.2
    rwa [Bool.not_eq_true'] at h2
  · cases h

theorem chmod_ok_facts {fs : FS} {p : String} {m : Nat} {ok : Bool} {fs' : FS}
    (h : chmod fs p m ok = .ok fs') :
    ok = true ∧
    fs' = { fs with files := List.map (fun f => if f.1 = p then (f.1, f.2.1, m) else f) fs.files } := by
  unfold chmod at h
  split at h
  · cases h
  · rename_i hok
    constructor
    · cases ok
      · simp at hok
      · rfl
    · split at h
      · cases h
      · injection h with h
        exact h.symm

theorem run_ok_lookup {fs : FS} {argv : List String} {chm : Bool} {args : Args} {fs' : FS}
    (hp : parseArgs argv = .ok args)
    (hr : run fs argv chm = (.ok (), fs')) :
    lookupFile fs' args.out = some (buildScript args.test, permissions) := by
  obtain ⟨fs1, fs2, h1, h2, h3⟩ := run_ok_parts hp hr
  obtain ⟨hw1, hw2, hwc, hwp⟩ := writeFile_ok_facts h2
  obtain ⟨hok, hc2⟩ := chmod_ok_facts h3
  subst hc2
  unfold lookupFile
  simp only [hw2, List.map_cons, List.find?]
  simp


theorem dirname_no_slash (p : String) (h : ¬ '/' ∈ p.data) : dirname p = "" := by
  unfold dirname
  have hd : p.data.reverse.dropWhile (fun c => c != '/') = [] := by
    rw [List.dropWhile_eq_nil_iff]
    intro x hx
    simp only [bne_iff_ne, ne_eq]
    intro hxq
    subst hxq
    exact h (List.mem_reverse.mp hx)
  rw [hd]
  simp

theorem dirname_empty : dirname "" = "" := rfl

theorem ensureDir_empty (fs : FS) : ensureDir fs "" = .error .ioError := by
  simp [ensureDir, pathExists, makedirs]

/-- Claim C1: on every successful invocation the file at the output path
contains exactly the shebang line `#!/bin/sh`, one blank line, then each
target emitted verbatim in input order, one per line, each followed by a
single newline, with no trailing blank line after the last target line:
the content is `"#!/bin/sh\n\n"` followed by the concatenation of
`target ++ "\n"` over the (necessarily non-empty) target list. -/
theorem claim1_content {fs : FS} {argv : List String} {args : Args} {fs' : FS}
    (hp : parseArgs argv = .ok args)
    (hr : run fs argv true = (.ok (), fs')) :
    args.test ≠ [] ∧
    fileContent fs' args.out
      = some ("#!/bin/sh\n\n" ++ String.join (args.test.map (fun t => t ++ "\n"))) := by
  refine ⟨parseArgs_ok_ne_nil argv args hp, ?_⟩
  unfold fileContent
  rw [run_ok_lookup hp hr, buildScript_eq_join]
  rfl

theorem claim1_content_witness :
    parseArgs ["--out", "out/x", "--test", "a", "--test", "b"]
      = .ok ⟨"out/x", ["a", "b"]⟩ ∧
    run ⟨[], []⟩ ["--out", "out/x", "--test", "a", "--test", "b"] true
      = (.ok (), ⟨["out"], [("out/x", "#!/bin/sh\n\na\nb\n", 508)]⟩) ∧
    ((⟨"out/x", ["a", "b"]⟩ : Args).test ≠ [] ∧
      fileContent (⟨["out"], [("out/x", "#!/bin/sh\n\na\nb\n", 508)]⟩ : FS) "out/x"
        = some ("#!/bin/sh\n\n"
            ++ String.join (["a", "b"].map (fun t => t ++ "\n")))) :=
  ⟨rfl, rfl,
    claim1_content
      (show parseArgs ["--out", "out/x", "--test", "a", "--test", "b"]
          = .ok ⟨"out/x", ["a", "b"]⟩ from rfl)
      (show run ⟨[], []⟩ ["--out", "out/x", "--test", "a", "--test", "b"] true
          = (.ok (), ⟨["out"], [("out/x", "#!/bin/sh\n\na\nb\n", 508)]⟩) from rfl)⟩

/-- Claim C2: after a successful run the file's mode bits are exactly
`permissions` = owner rwx, group rwx, other read (no write, no execute
for other); and the permission change is a separate step applied after
the content is written: if the chmod step fails, the run fails but the
content has already been written. -/
theorem claim2_permissions {fs : FS} {argv : List String} {args : Args} {fs' : FS}
    (hp : parseArgs argv = .ok args)
    (hr : run fs argv true = (.ok (), fs')) :
    fileMode fs' args.out = some permissions ∧
    permissions = 0o774 ∧
    permissions &&& 0o400 ≠ 0 ∧ permissions &&& 0o200 ≠ 0 ∧
    permissions &&& 0o100 ≠ 0 ∧ permissions &&& 0o40 ≠ 0 ∧
    permissions &&& 0o20 ≠ 0 ∧ permissions &&& 0o10 ≠ 0 ∧
    permissions &&& 0o4 ≠ 0 ∧ permissions &&& 0o2 = 0 ∧
    permissions &&& 0o1 = 0 ∧
    (run fs argv false).1 = .error .ioError ∧
    fileContent (run fs argv false).2 args.out = some (buildScript args.test) := by
  obtain ⟨fs1, fs2, h1, h2, h3⟩ := run_ok_parts hp hr
  have hrf := run_chmod_false hp h1 h2
  refine ⟨?_, by decide, by decide, by decide, by decide, by decide, by decide,
    by decide, by decide, by decide, by decide, by rw [hrf], ?_⟩
  · unfold fileMode
    rw [run_ok_lookup hp hr]
    rfl
  · rw [hrf]
    obtain ⟨hw1, hw2, hw3, hw4⟩ := writeFile_ok_facts h2
    unfold fileContent lookupFile
    rw [hw2]
    simp [List.find?]

theorem claim2_permissions_witness :
    parseArgs ["--out", "d/f", "--test", "t"] = .ok ⟨"d/f", ["t"]⟩ ∧
    run ⟨[], []⟩ ["--out", "d/f", "--test", "t"] true
      = (.ok (), ⟨["d"], [("d/f", "#!/bin/sh\n\nt\n", 508)]⟩) ∧
    fileMode (⟨["d"], [("d/f", "#!/bin/sh\n\nt\n", 508)]⟩ : FS) "d/f"
      = some permissions :=
  ⟨rfl, rfl,
    (claim2_permissions
      (show parseArgs ["--out", "d/f", "--test", "t"] = .ok ⟨"d/f", ["t"]⟩ from rfl)
      (show run ⟨[], []⟩ ["--out", "d/f", "--test", "t"] true
          = (.ok (), ⟨["d"], [("d/f", "#!/bin/sh\n\nt\n", 508)]⟩) from rfl)).1⟩

/-- Claim C3 fails as stated: the spec formula reads `"#!/sh\n\n"` but the
script writes the shebang `#!/bin/sh`, so for the single target `a` the
generated content is `"#!/bin/sh\n\na\n"`, not
`"#!/sh\n\n" ++ join(["a"], "\n") ++ "\n" = "#!/sh\n\na\n"`. -/
theorem claim3_counterexample :
    (run ⟨[], []⟩ ["--out", "out/x", "--test", "a"] true).1 = .ok () ∧
    fileContent (run ⟨[], []⟩ ["--out", "out/x", "--test", "a"] true).2 "out/x"
      ≠ some ("#!/sh\n\n" ++ String.intercalate "\n" ["a"] ++ "\n") :=
  ⟨rfl, by decide⟩

/-- Claim C3, amended: for every non-empty target list and valid output
path, the generated file content equals
`"#!/bin/sh\n\n" ++ join(T, "\n") ++ "\n"` (shebang `#!/bin/sh`, not
`#!/sh`). -/
theorem claim3_amended {fs : FS} {argv : List String} {args : Args} {fs' : FS}
    (hp : parseArgs argv = .ok args)
    (hr : run fs argv true = (.ok (), fs')) :
    fileContent fs' args.out
      = some ("#!/bin/sh\n\n" ++ String.intercalate "\n" args.test ++ "\n") := by
  unfold fileContent
  rw [run_ok_lookup hp hr, buildScript_eq_join,
    ← intercalate_newline args.test (parseArgs_ok_ne_nil argv args hp),
    String.append_assoc]
  rfl

theorem claim3_amended_witness :
    parseArgs ["--out", "out/y", "--test", "u", "--test", "v"]
      = .ok ⟨"out/y", ["u", "v"]⟩ ∧
    run ⟨[], []⟩ ["--out", "out/y", "--test", "u", "--test", "v"] true
      = (.ok (), ⟨["out"], [("out/y", "#!/bin/sh\n\nu\nv\n", 508)]⟩) ∧
    fileContent (⟨["out"], [("out/y", "#!/bin/sh\n\nu\nv\n", 508)]⟩ : FS) "out/y"
      = some ("#!/bin/sh\n\n" ++ String.intercalate "\n" ["u", "v"] ++ "\n") :=
  ⟨rfl, rfl,
    claim3_amended
      (show parseArgs ["--out", "out/y", "--test", "u", "--test", "v"]
          = .ok ⟨"out/y", ["u", "v"]⟩ from rfl)
      (show run ⟨[], []⟩ ["--out", "out/y", "--test", "u", "--test", "v"] true
          = (.ok (), ⟨["out"], [("out/y", "#!/bin/sh\n\nu\nv\n", 508)]⟩) from rfl)⟩

/-- Claim C5: an invocation with zero `--test` flags, or one missing
`--out`, fails with a usage error, exits non-zero, and leaves the
filesystem exactly as it was: the failure is detected during argument
parsing, before any filesystem mutation. -/
theorem claim5_usage {fs : FS} {argv : List String} {chm : Bool}
    (h : ¬ "--test" ∈ argv ∨ ¬ "--out" ∈ argv) :
    run fs argv chm = (.error .usage, fs) ∧
    exitCode (run fs argv chm).1 ≠ 0 := by
  have hp : parseArgs argv = .error .usage := by
    cases h with
    | inl h => exact parseArgsAux_no_test argv none [] h rfl
    | inr h => exact parseArgsAux_no_out argv none [] h rfl
  refine ⟨run_parse_error hp, ?_⟩
  rw [run_parse_error hp]
  simp [exitCode]

theorem claim5_usage_witness :
    (¬ "--test" ∈ ["--out", "p"] ∨ ¬ "--out" ∈ ["--out", "p"]) ∧
    (run ⟨[], []⟩ ["--out", "p"] true = (.error .usage, (⟨[], []⟩ : FS)) ∧
      exitCode (run ⟨[], []⟩ ["--out", "p"] true).1 ≠ 0) :=
  ⟨Or.inl (by decide), claim5_usage (Or.inl (by decide))⟩

/-- Claim C7: generation is deterministic in the parsed arguments alone
and overwrites any pre-existing file: two successful runs with the same
argument vector from arbitrary (possibly different) initial filesystems
produce the same file entry at the output path, namely the script content
with the `permissions` mode bits, regardless of any prior content there. -/
theorem claim7_deterministic {fsa fsb : FS} {argv : List String} {args : Args}
    {ga gb : FS}
    (hp : parseArgs argv = .ok args)
    (ha : run fsa argv true = (.ok (), ga))
    (hb : run fsb argv true = (.ok (), gb)) :
    lookupFile ga args.out = lookupFile gb args.out ∧
    lookupFile ga args.out = some (buildScript args.test, permissions) := by
  have h1 := run_ok_lookup hp ha
  have h2 := run_ok_lookup hp hb
  exact ⟨h1.trans h2.symm, h1⟩

theorem claim7_deterministic_witness :
    parseArgs ["--out", "out/x", "--test", "a"] = .ok ⟨"out/x", ["a"]⟩ ∧
    run ⟨[], []⟩ ["--out", "out/x", "--test", "a"] true
      = (.ok (), ⟨["out"], [("out/x", "#!/bin/sh

a
", 508)]⟩) ∧
    run ⟨["out"], [("out/x", "stale content", 511)]⟩
        ["--out", "out/x", "--test", "a"] true
      = (.ok (), ⟨["out"], [("out/x", "#!/bin/sh

a
", 508)]⟩) ∧
    (lookupFile (⟨["out"], [("out/x", "#!/bin/sh

a
", 508)]⟩ : FS) "out/x"
        = lookupFile (⟨["out"], [("out/x", "#!/bin/sh

a
", 508)]⟩ : FS) "out/x" ∧
      lookupFile (⟨["out"], [("out/x", "#!/bin/sh

a
", 508)]⟩ : FS) "out/x"
        = some (buildScript ["a"], permissions)) :=
  ⟨rfl, rfl, rfl,
    claim7_deterministic
      (show parseArgs ["--out", "out/x", "--test", "a"] = .ok ⟨"out/x", ["a"]⟩ from rfl)
      (show run ⟨[], []⟩ ["--out", "out/x", "--test", "a"] true
          = (.ok (), ⟨["out"], [("out/x", "#!/bin/sh\n\na\n", 508)]⟩) from rfl)
      (show run ⟨["out"], [("out/x", "stale content", 511)]⟩
            ["--out", "out/x", "--test", "a"] true
          = (.ok (), ⟨["out"], [("out/x", "#!/bin/sh\n\na\n", 508)]⟩) from rfl)⟩

/-- Claim C9: the exit status is zero exactly when the whole
parse–ensure-directory–write–chmod sequence succeeds; every usage error
and every filesystem error yields a non-zero status. -/
theorem claim9_exit_code (fs : FS) (argv : List String) (chm : Bool) :
    (exitCode (run fs argv chm).1 = 0 ↔ (run fs argv chm).1 = .ok ()) ∧
    exitCode (Except.ok ()) = 0 ∧
    (∀ e : Err, exitCode (.error e) ≠ 0) := by
  refine ⟨?_, rfl, ?_⟩
  · cases hres : (run fs argv chm).1 with
    | ok u => cases u; simp [exitCode]
    | error e => cases e <;> simp [exitCode]
  · intro e
    cases e <;> simp [exitCode]

/-- Claim C10: when the output path is non-empty and contains no `/`, its
`os.path.dirname` is the empty string; `os.path.exists('')` is false, so
the program calls `os.makedirs('')`, which raises — the run fails with an
uncaught exception (non-zero exit) and the filesystem is untouched, even
though the would-be parent directory (the current working directory)
exists. -/
theorem claim10_no_separator {fs : FS} {argv : List String} {chm : Bool} {args : Args}
    (hp : parseArgs argv = .ok args)
    (_hne : args.out ≠ "")
    (hns : ¬ '/' ∈ args.out.data) :
    dirname args.out = "" ∧
    run fs argv chm = (.error .ioError, fs) ∧
    exitCode (run fs argv chm).1 ≠ 0 := by
  have hd := dirname_no_slash args.out hns
  have hrun : run fs argv chm = (.error .ioError, fs) := by
    unfold run
    rw [hp]
    dsimp only
    rw [hd, ensureDir_empty]
  refine ⟨hd, hrun, ?_⟩
  rw [hrun]
  simp [exitCode]

theorem claim10_no_separator_witness :
    parseArgs ["--out", "a", "--test", "t"] = .ok ⟨"a", ["t"]⟩ ∧
    ("a" : String) ≠ "" ∧
    ¬ '/' ∈ ("a" : String).data ∧
    (dirname "a" = "" ∧
      run ⟨[], []⟩ ["--out", "a", "--test", "t"] true
        = (.error .ioError, (⟨[], []⟩ : FS)) ∧
      exitCode (run ⟨[], []⟩ ["--out", "a", "--test", "t"] true).1 ≠ 0) :=
  ⟨rfl, by decide, by decide,
    claim10_no_separator
      (show parseArgs ["--out", "a", "--test", "t"] = .ok ⟨"a", ["t"]⟩ from rfl)
      (by decide) (by decide)⟩
theorem splitNl_newline_append (a b : List Char) (h : ∀ c ∈ a, ¬ c = '\n') :
    splitNl (a ++ '\n' :: b) = a :: splitNl b := by
  induction a with
  | nil => simp [splitNl]
  | cons c a' ih =>
    have hc : ¬ c = '\n' := h c (List.mem_cons_self _ _)
    rw [List.cons_append]
    rw [show splitNl (c :: (a' ++ '\n' :: b))
        = match splitNl (a' ++ '\n' :: b) with
          | l :: ls => (c :: l) :: ls
          | [] => [[c]] from by rw [splitNl, if_neg hc]]
    rw [ih (fun x hx => h x (List.mem_cons_of_mem _ hx))]

theorem splitNl_join (T : List String) (h : ∀ t ∈ T, ¬ '\n' ∈ t.data) :
    splitNl (String.join (T.map (fun t => t ++ "\n"))).data
      = T.map String.data ++ [[]] := by
  induction T with
  | nil => simp [String.join, splitNl]
  | cons t ts ih =>
    have hdata : (String.join ((t :: ts).map (fun t => t ++ "\n"))).data
        = t.data ++ '\n' :: (String.join (ts.map (fun t => t ++ "\n"))).data := by
      rw [List.map_cons, join_cons]
      simp [String.data_append]
    rw [hdata]
    rw [splitNl_newline_append _ _
      (fun c hc hceq => h t (List.mem_cons_self _ _) (hceq ▸ hc))]
    rw [ih (fun u hu => h u (List.mem_cons_of_mem _ hu))]
    rfl

/-- Claim C4: the target lines of the generated file appear in exactly
the order of the `--test` flag occurrences on the command line, with no
sorting and no deduplication: parsing the argument vector
`--out o --test t₁ … --test tₙ` yields the target list `[t₁, …, tₙ]`
unchanged, and splitting the generated content at newlines yields the
shebang line, one blank line, then precisely those targets in that order
(plus the empty segment after the final newline); repeated identical
targets appear as repeated identical lines. -/
theorem claim4_order (o : String) (T : List String) (hT : T ≠ [])
    (hnl : ∀ t ∈ T, ¬ '\n' ∈ t.data) :
    parseArgs (mkArgv o T) = .ok ⟨o, T⟩ ∧
    splitNl (buildScript T).data
      = "#!/bin/sh".data :: [] :: (T.map String.data ++ [[]]) ∧
    (∀ fs fs' : FS, run fs (mkArgv o T) true = (.ok (), fs') →
      fileContent fs' o = some (buildScript T)) := by
  refine ⟨parseArgs_mkArgv o T hT, ?_, ?_⟩
  · rw [buildScript_eq_join]
    rw [show ("#!/bin/sh\n\n" ++ String.join (T.map (fun t => t ++ "\n"))).data
        = "#!/bin/sh".data ++ '\n'
          :: '\n' :: (String.join (T.map (fun t => t ++ "\n"))).data from by
      simp [String.data_append]]
    rw [splitNl_newline_append _ _ (by decide)]
    rw [show splitNl ('\n' :: (String.join (T.map (fun t => t ++ "\n"))).data)
        = [] :: splitNl (String.join (T.map (fun t => t ++ "\n"))).data from by
      rw [splitNl, if_pos rfl]]
    rw [splitNl_join T hnl]
  · intro fs fs' hr
    have hlook := run_ok_lookup (parseArgs_mkArgv o T hT) hr
    unfold fileContent
    rw [hlook]
    rfl

theorem claim4_order_witness :
    (["dup", "other", "dup"] : List String) ≠ [] ∧
    (∀ t ∈ (["dup", "other", "dup"] : List String), ¬ '\n' ∈ t.data) ∧
    (parseArgs (mkArgv "out/x" ["dup", "other", "dup"])
        = .ok ⟨"out/x", ["dup", "other", "dup"]⟩ ∧
      splitNl (buildScript ["dup", "other", "dup"]).data
        = "#!/bin/sh".data
          :: [] :: (["dup", "other", "dup"].map String.data ++ [[]]) ∧
      (∀ fs fs' : FS,
        run fs (mkArgv "out/x" ["dup", "other", "dup"]) true = (.ok (), fs') →
        fileContent fs' "out/x" = some (buildScript ["dup", "other", "dup"]))) :=
  ⟨by decide, by decide, claim4_order "out/x" ["dup", "other", "dup"] (by decide) (by decide)⟩

/-- Claim C6: on every successful run the parent directory of the output
path exists afterwards, as does the generated file; when the parent
already existed the directory set is left untouched (the creation step is
skipped, i.e. it is idempotent), and when it did not exist it is created
together with all missing ancestor directories. -/
theorem claim6_parent_dir {fs : FS} {argv : List String} {args : Args} {fs' : FS}
    (hp : parseArgs argv = .ok args)
    (hr : run fs argv true = (.ok (), fs')) :
    pathExists fs' (dirname args.out) = true ∧
    pathExists fs' args.out = true ∧
    (pathExists fs (dirname args.out) = true → fs'.dirs = fs.dirs) ∧
    (pathExists fs (dirname args.out) = false →
      ∀ q ∈ dirChain ((dirname args.out).length + 1) (dirname args.out),
        q ∈ fs'.dirs) := by
  obtain ⟨fs1, fs2, h1, h2, h3⟩ := run_ok_parts hp hr
  obtain ⟨he_files, he_ne, he_id, he_mk⟩ := ensureDir_ok_facts h1
  obtain ⟨hw_dirs, hw_files, hw_cond, hw_nd⟩ := writeFile_ok_facts h2
  obtain ⟨hok, hc⟩ := chmod_ok_facts h3
  subst hc
  have hcont : fs1.dirs.contains (dirname args.out) = true := by
    rcases Bool.or_eq_true_iff.mp hw_cond with hq | hq
    · exact absurd (eq_of_beq hq) he_ne
    · exact hq
  have hone : args.out ≠ "" := by
    intro hz
    exact he_ne (by rw [hz]; rfl)
  refine ⟨?_, ?_, ?_, ?_⟩
  · show pathExists { dirs := fs2.dirs, files := _ } (dirname args.out) = true
    unfold pathExists
    rw [hw_dirs, hcont]
    simp [he_ne]
  · show pathExists { dirs := fs2.dirs, files := _ } args.out = true
    unfold pathExists
    rw [hw_files]
    simp [hone]
  · intro hex
    show fs2.dirs = fs.dirs
    rw [hw_dirs, he_id hex]
  · intro hex q hq
    show q ∈ fs2.dirs
    rw [hw_dirs, he_mk hex]
    exact List.mem_append.mpr (Or.inl hq)

theorem claim6_parent_dir_witness :
    parseArgs ["--out", "p/q/f", "--test", "t"] = .ok ⟨"p/q/f", ["t"]⟩ ∧
    run ⟨[], []⟩ ["--out", "p/q/f", "--test", "t"] true
      = (.ok (), ⟨["p/q", "p"], [("p/q/f", "#!/bin/sh\n\nt\n", 508)]⟩) ∧
    (pathExists (⟨["p/q", "p"], [("p/q/f", "#!/bin/sh\n\nt\n", 508)]⟩ : FS)
        (dirname "p/q/f") = true ∧
      pathExists (⟨["p/q", "p"], [("p/q/f", "#!/bin/sh\n\nt\n", 508)]⟩ : FS)
        "p/q/f" = true ∧
      (pathExists (⟨[], []⟩ : FS) (dirname "p/q/f") = true →
        (⟨["p/q", "p"], [("p/q/f", "#!/bin/sh\n\nt\n", 508)]⟩ : FS).dirs
          = (⟨[], []⟩ : FS).dirs) ∧
      (pathExists (⟨[], []⟩ : FS) (dirname "p/q/f") = false →
        ∀ q ∈ dirChain ((dirname "p/q/f").length + 1) (dirname "p/q/f"),
          q ∈ (⟨["p/q", "p"], [("p/q/f", "#!/bin/sh\n\nt\n", 508)]⟩ : FS).dirs)) :=
  ⟨rfl, rfl,
    claim6_parent_dir
      (show parseArgs ["--out", "p/q/f", "--test", "t"] = .ok ⟨"p/q/f", ["t"]⟩ from rfl)
      (show run ⟨[], []⟩ ["--out", "p/q/f", "--test", "t"] true
          = (.ok (), ⟨["p/q", "p"], [("p/q/f", "#!/bin/sh\n\nt\n", 508)]⟩) from rfl)⟩
/-- Claim C8 fails as stated: when a file already exists at the output
path, `open(p, 'w')` truncates it but keeps its mode bits, so if that
pre-existing file was executable (here mode `0o777`) and the permission
change then fails, the program does fail with an `IOError` and the file
does remain on disk with the new content — but in an *executable* state,
not the claimed non-executable one. -/
theorem claim8_counterexample :
    (run ⟨["out"], [("out/x", "old", 0o777)]⟩
        ["--out", "out/x", "--test", "a"] false).1 = .error .ioError ∧
    fileContent (run ⟨["out"], [("out/x", "old", 0o777)]⟩
        ["--out", "out/x", "--test", "a"] false).2 "out/x"
      = some (buildScript ["a"]) ∧
    fileMode (run ⟨["out"], [("out/x", "old", 0o777)]⟩
        ["--out", "out/x", "--test", "a"] false).2 "out/x" = some 0o777 ∧
    ¬ (0o777 &&& 0o111 = 0) ∧
    (run ⟨["out"], [("out/x", "old", 0o777)]⟩
        ["--out", "out/x", "--test", "a"] true).1 = .ok () :=
  ⟨rfl, rfl, rfl, by decide, rfl⟩

/-- Claim C8, amended: when the write succeeds but the permission change
fails, the program fails with an `IOError` (non-zero exit) and the
written file remains on disk with the new content and its permission
bits not updated — the default non-executable mode when the file was
freshly created, or the pre-existing file's mode bits otherwise; there is
no rollback, cleanup, or deletion of the file. -/
theorem claim8_amended {fs : FS} {argv : List String} {args : Args} {fs' : FS}
    (hp : parseArgs argv = .ok args)
    (hr : run fs argv true = (.ok (), fs')) :
    (run fs argv false).1 = .error .ioError ∧
    exitCode (run fs argv false).1 ≠ 0 ∧
    fileContent (run fs argv false).2 args.out = some (buildScript args.test) ∧
    fileMode (run fs argv false).2 args.out = some (priorMode fs args.out) ∧
    (lookupFile fs args.out = none →
      fileMode (run fs argv false).2 args.out = some defaultMode ∧
        defaultMode &&& 0o111 = 0) := by
  obtain ⟨fs1, fs2, h1, h2, h3⟩ := run_ok_parts hp hr
  obtain ⟨he_files, he_ne, he_id, he_mk⟩ := ensureDir_ok_facts h1
  obtain ⟨hw_dirs, hw_files, hw_cond, hw_nd⟩ := writeFile_ok_facts h2
  have hrf := run_chmod_false hp h1 h2
  have hpm : priorMode fs1 args.out = priorMode fs args.out := by
    unfold priorMode lookupFile
    rw [he_files]
  have hlook : lookupFile fs2 args.out
      = some (buildScript args.test, priorMode fs args.out) := by
    unfold lookupFile
    rw [hw_files, ← hpm]
    simp [List.find?]
  rw [hrf]
  refine ⟨rfl, by simp [exitCode], ?_, ?_, ?_⟩
  · unfold fileContent
    rw [hlook]
    rfl
  · unfold fileMode
    rw [hlook]
    rfl
  · intro hnone
    have hdm : priorMode fs args.out = defaultMode := by
      unfold priorMode
      rw [hnone]
    constructor
    · unfold fileMode
      rw [hlook, hdm]
      rfl
    · decide

theorem claim8_amended_witness :
    parseArgs ["--out", "d/g", "--test", "x"] = .ok ⟨"d/g", ["x"]⟩ ∧
    run ⟨["d"], []⟩ ["--out", "d/g", "--test", "x"] true
      = (.ok (), ⟨["d"], [("d/g", "#!/bin/sh\n\nx\n", 508)]⟩) ∧
    ((run ⟨["d"], []⟩ ["--out", "d/g", "--test", "x"] false).1 = .error .ioError ∧
      exitCode (run ⟨["d"], []⟩ ["--out", "d/g", "--test", "x"] false).1 ≠ 0 ∧
      fileContent (run ⟨["d"], []⟩ ["--out", "d/g", "--test", "x"] false).2 "d/g"
        = some (buildScript ["x"]) ∧
      fileMode (run ⟨["d"], []⟩ ["--out", "d/g", "--test", "x"] false).2 "d/g"
        = some (priorMode ⟨["d"], []⟩ "d/g") ∧
      (lookupFile (⟨["d"], []⟩ : FS) "d/g" = none →
        fileMode (run ⟨["d"], []⟩ ["--out", "d/g", "--test", "x"] false).2 "d/g"
          = some defaultMode ∧ defaultMode &&& 0o111 = 0)) :=
  ⟨rfl, rfl,
    claim8_amended
      (show parseArgs ["--out", "d/g", "--test", "x"] = .ok ⟨"d/g", ["x"]⟩ from rfl)
      (show run ⟨["d"], []⟩ ["--out", "d/g", "--test", "x"] true
          = (.ok (), ⟨["d"], [("d/g", "#!/bin/sh\n\nx\n", 508)]⟩) from rfl)⟩
end GenTestBundle
